import Mathlib

/-! Query construction and row collection in `go-paginate/db/user.go`.

A shallow embedding of the package `db`:

* Go strings are `String`, slices are `List`, and a `strings.Builder` is the
  `String` written so far, threaded through the functions that write to it.
* Go `int` is `Int` kept in the signed 64-bit range by `wrapInt` wherever the
  source does arithmetic (`(page - 1) * pageSize`).
* A value of type `any` passed to `db.Query` is an `Arg`.
* `*sql.DB` is a `DB`: a function answering a query text and its arguments with
  a cursor or a driver error, together with the log of the queries it was sent.
* `*sql.Rows` is a `Rows`: the scan result of each row in cursor order, and the
  value `rows.Err()` reports once `rows.Next()` has returned false.
* A Go function returning `([]User, error)` returns `List User × Option Error`;
  the `nil` slice is `[]`, the `nil` error is `none`.
* A `panic` is recorded next to the state reached when it was raised.
-/

namespace db

/-! ## Data model -/

/-- The package's error values (`user.go` lines 14-20) and, as `engine`, an
error produced by `database/sql` or the driver. -/
inductive Error where
  | ErrCouldNotOpen
  | ErrCouldNotCreate
  | ErrInsertFailed
  | ErrRetrieveFailed
  | ErrInvalidOrder
  | engine (msg : String)
  deriving DecidableEq, Repr

/-- The struct `OrderBy` (lines 22-26). -/
structure OrderBy where
  Id : String
  Age : String
  Name : String
  deriving DecidableEq, Repr

/-- The struct `Filters` (lines 28-33). -/
structure Filters where
  Status : String
  Countries : List String
  Age : Int
  Degree : String
  deriving DecidableEq, Repr

/-- The struct `User` (lines 35-43). -/
structure User where
  Id : Int
  Name : String
  Age : Int
  Country : String
  Degree : String
  Status : String
  Site : String
  deriving DecidableEq, Repr

/-- A bound parameter: the dynamic type of an `any` handed to `db.Query`. -/
inductive Arg where
  | str (s : String)
  | int (n : Int)
  deriving DecidableEq, Repr

/-- A result cursor: what `rows.Scan` yields for each row, in order, and what
`rows.Err()` reports after the last row. -/
structure Rows where
  scans : List (Except Error User)
  err : Option Error

/-- The database handle: how it answers a query, and the queries sent so far. -/
structure DB where
  exec : String → List Arg → Except Error Rows
  log : List (String × List Arg)

/-- The struct `UserTable` (lines 45-47). -/
structure UserTable where
  db : DB

/-- The struct `queryOptions` (lines 226-232). -/
structure queryOptions where
  Limit : Int
  Status : List String
  Country : List String
  OrderBy : String
  Order : String
  deriving DecidableEq, Repr

/-- The zero value `&queryOptions{}` of line 118. -/
def queryOptions.zero : queryOptions := ⟨0, [], [], "", ""⟩

/-- The type `Option` of line 234, `func(*queryOptions)`: the options after the
call, and the value it panicked with, if it did. -/
abbrev QOption := queryOptions → queryOptions × Option Error

/-- How a call that may panic ends. -/
inductive Outcome (α : Type) where
  | returned (a : α)
  | panicked (v : Error)

/-! ## Go primitives -/

/-- Two's-complement wrap-around of Go's 64-bit `int`. -/
def wrapInt (x : Int) : Int := (x + 2 ^ 63) % 2 ^ 64 - 2 ^ 63

/-- The values a Go `int` can hold. -/
def isInt (x : Int) : Prop := -(2 ^ 63) ≤ x ∧ x < 2 ^ 63

instance (x : Int) : Decidable (isInt x) := by unfold isInt; infer_instance

/-- The verb `%d` of `fmt.Sprintf` on an `int`: decimal digits, with a leading
minus sign for a negative number. -/
def fmtD : Int → String
  | Int.ofNat n => Nat.repr n
  | Int.negSucc n => "-" ++ Nat.repr (n + 1)

/-- Go's `strings.Join`. -/
def stringsJoin : List String → String → String
  | [], _ => ""
  | [a], _ => a
  | a :: b :: rest, sep => a ++ sep ++ stringsJoin (b :: rest) sep

/-- Go's `strings.Repeat`. -/
def stringsRepeat (s : String) : Nat → String
  | 0 => ""
  | n + 1 => s ++ stringsRepeat s n

/-- The method `Query` of `*sql.DB`: the query is logged and answered. -/
def DB.Query (d : DB) (query : String) (args : List Arg) : DB × Except Error Rows :=
  (⟨d.exec, d.log ++ [(query, args)]⟩, d.exec query args)

/-- The number of `?` placeholders in a query text. -/
def placeholders (s : String) : Nat := s.data.count '?'

/-! ## `applyFilters` (lines 290-310) -/

/-- The loop of lines 296-301 over `filters.Countries`, at index `i`. -/
def applyFilters.loop (queryBuilder : String) (i : Nat) : List String → String
  | [] => queryBuilder
  | _ :: rest =>
    let queryBuilder := if i > 0 then queryBuilder ++ ", " else queryBuilder
    let queryBuilder := queryBuilder ++ "LOWER(?)"
    applyFilters.loop queryBuilder (i + 1) rest

/-- The function `applyFilters`: the builder after the filter clauses are written. -/
def applyFilters (queryBuilder : String) (filters : Filters) : String :=
  let queryBuilder :=
    if filters.Status ≠ "" then queryBuilder ++ " AND LOWER(status) = LOWER(?)"
    else queryBuilder
  let queryBuilder :=
    if filters.Countries.length > 0 then
      let queryBuilder := queryBuilder ++ " AND LOWER(country) IN ("
      let queryBuilder := applyFilters.loop queryBuilder 0 filters.Countries
      queryBuilder ++ ")"
    else queryBuilder
  let queryBuilder :=
    if filters.Age > 0 then queryBuilder ++ " AND age = ?" else queryBuilder
  let queryBuilder :=
    if filters.Degree ≠ "" then queryBuilder ++ " AND LOWER(degree) = LOWER(?)"
    else queryBuilder
  queryBuilder

/-! ## `applyOrderBy` (lines 312-327) -/

/-- The slice `orderClauses` built in lines 313-322. -/
def orderClauses (orderBy : OrderBy) : List String :=
  let orderClauses : List String := []
  let orderClauses :=
    if orderBy.Id ≠ "" then orderClauses ++ ["id " ++ orderBy.Id] else orderClauses
  let orderClauses :=
    if orderBy.Age ≠ "" then orderClauses ++ ["age " ++ orderBy.Age] else orderClauses
  let orderClauses :=
    if orderBy.Name ≠ "" then orderClauses ++ ["name " ++ orderBy.Name] else orderClauses
  orderClauses

/-- The function `applyOrderBy`: the builder after the ordering clause is written. -/
def applyOrderBy (queryBuilder : String) (orderBy : OrderBy) : String :=
  if (orderClauses orderBy).length > 0 then
    queryBuilder ++ (" ORDER BY " ++ stringsJoin (orderClauses orderBy) ", ")
  else queryBuilder

/-! ## `collectUsers` (lines 264-288) -/

/-- The loop of lines 266-281 followed by lines 283-287: `users` is the slice
collected so far, the list is what the cursor still holds. -/
def collectUsers.loop (rows : Rows) (users : List User) :
    List (Except Error User) → List User × Option Error
  | [] =>
    match rows.err with
    | some err => ([], some err)
    | none => (users, none)
  | Except.error err :: _ => ([], some err)
  | Except.ok user :: rest => collectUsers.loop rows (users ++ [user]) rest

/-- The function `collectUsers`. -/
def collectUsers (rows : Rows) : List User × Option Error :=
  collectUsers.loop rows [] rows.scans

/-! ## `Paginate` (lines 182-220) -/

/-- The select every query starts from (lines 124-126 and 188-190). -/
def baseQuery : String :=
  "SELECT id, name, age, country, degree, status, site FROM users WHERE 1=1"

/-- The call `fmt.Sprintf(" LIMIT %d OFFSET %d", pageSize, offset)` of line 197. -/
def limitOffset (pageSize offset : Int) : String :=
  " LIMIT " ++ fmtD pageSize ++ " OFFSET " ++ fmtD offset

/-- The value `offset` of line 196. -/
def paginateOffset (pageSize page : Int) : Int :=
  wrapInt (wrapInt (page - 1) * pageSize)

/-- The text `queryBuilder.String()` that `Paginate` sends (lines 187-197). -/
def paginateQuery (pageSize page : Int) (orderBy : OrderBy) (filters : Filters) : String :=
  let queryBuilder := baseQuery
  let queryBuilder := applyFilters queryBuilder filters
  let queryBuilder := applyOrderBy queryBuilder orderBy
  let offset := paginateOffset pageSize page
  queryBuilder ++ limitOffset pageSize offset

/-- The slice `args` that `Paginate` sends (lines 199-211). -/
def paginateArgs (filters : Filters) : List Arg :=
  let args : List Arg := []
  let args := if filters.Status ≠ "" then args ++ [Arg.str filters.Status] else args
  let args := filters.Countries.foldl (fun args country => args ++ [Arg.str country]) args
  let args := if filters.Age > 0 then args ++ [Arg.int filters.Age] else args
  let args := if filters.Degree ≠ "" then args ++ [Arg.str filters.Degree] else args
  args

/-- The method `Paginate`: the table afterwards and the returned pair. -/
def UserTable.Paginate (ut : UserTable) (pageSize page : Int) (orderBy : OrderBy)
    (filters : Filters) : UserTable × (List User × Option Error) :=
  match ut.db.Query (paginateQuery pageSize page orderBy filters) (paginateArgs filters) with
  | (d, Except.error err) => (⟨d⟩, ([], some err))
  | (d, Except.ok rows) => (⟨d⟩, collectUsers rows)

/-! ## The options and `Retrieve` (lines 117-168, 236-262) -/

/-- The option `WithLimit`. -/
def WithLimit (limit : Int) : QOption :=
  fun q => (⟨limit, q.Status, q.Country, q.OrderBy, q.Order⟩, none)

/-- The option `WithStatus`. -/
def WithStatus (status : List String) : QOption :=
  fun q => (⟨q.Limit, status, q.Country, q.OrderBy, q.Order⟩, none)

/-- The option `WithCountry`. -/
def WithCountry (countries : List String) : QOption :=
  fun q => (⟨q.Limit, q.Status, countries, q.OrderBy, q.Order⟩, none)

/-- The option `WithOrderBy` (lines 254-262): the panic of line 257 is raised
before either assignment. -/
def WithOrderBy (column order : String) : QOption :=
  fun q =>
    if order ≠ "asc" ∧ order ≠ "desc" then (q, some Error.ErrInvalidOrder)
    else (⟨q.Limit, q.Status, q.Country, column, order⟩, none)

/-- The loop of lines 119-121: each option is applied in turn; a panic ends it. -/
def applyOptions : List QOption → queryOptions → queryOptions × Option Error
  | [], q => (q, none)
  | opt :: rest, q =>
    match opt q with
    | (q, some v) => (q, some v)
    | (q, none) => applyOptions rest q

/-- The query text `Retrieve` builds from the options (lines 123-159). -/
def retrieveQuery (q : queryOptions) : String :=
  let queryBuilder := baseQuery
  let queryBuilder :=
    if q.Status.length > 0 then
      let statusPlaceholders := stringsRepeat "?," q.Status.length
      queryBuilder ++ (" AND status IN (" ++ statusPlaceholders.dropRight 1 ++ ")")
    else queryBuilder
  let queryBuilder :=
    if q.Country.length > 0 then
      let countryPlaceholders := stringsRepeat "?," q.Country.length
      queryBuilder ++ (" AND country IN (" ++ countryPlaceholders.dropRight 1 ++ ")")
    else queryBuilder
  let queryBuilder :=
    if q.OrderBy ≠ "" ∧ q.Order ≠ "" then
      queryBuilder ++ (" ORDER BY " ++ q.OrderBy ++ " " ++ q.Order)
    else queryBuilder
  let queryBuilder := if q.Limit > 0 then queryBuilder ++ " LIMIT ?" else queryBuilder
  queryBuilder

/-- The slice `args` that `Retrieve` builds from the options (lines 128-157). -/
def retrieveArgs (q : queryOptions) : List Arg :=
  let args : List Arg := []
  let args :=
    if q.Status.length > 0 then
      q.Status.foldl (fun args status => args ++ [Arg.str status]) args
    else args
  let args :=
    if q.Country.length > 0 then
      q.Country.foldl (fun args country => args ++ [Arg.str country]) args
    else args
  let args := if q.Limit > 0 then args ++ [Arg.int q.Limit] else args
  args

/-- The method `Retrieve`: the table afterwards, and the returned pair or the
panic an option raised. -/
def UserTable.Retrieve (ut : UserTable) (opts : List QOption) :
    UserTable × Outcome (List User × Option Error) :=
  match applyOptions opts queryOptions.zero with
  | (_, some v) => (ut, Outcome.panicked v)
  | (q, none) =>
    match ut.db.Query (retrieveQuery q) (retrieveArgs q) with
    | (d, Except.error _) => (⟨d⟩, Outcome.returned ([], some Error.ErrRetrieveFailed))
    | (d, Except.ok rows) => (⟨d⟩, Outcome.returned (collectUsers rows))

/-- The method `RetrieveAll` (lines 170-180). -/
def UserTable.RetrieveAll (ut : UserTable) : UserTable × (List User × Option Error) :=
  match ut.db.Query "SELECT id, name, age, country, degree, status, site FROM users" [] with
  | (d, Except.error _) => (⟨d⟩, ([], some Error.ErrRetrieveFailed))
  | (d, Except.ok rows) => (⟨d⟩, collectUsers rows)

/-! ## The filter clauses in the specification's terms -/

/-- One AND-clause of the WHERE part: its text and the values bound to its
placeholders, in placeholder order. -/
structure Clause where
  text : String
  values : List Arg
  deriving DecidableEq, Repr

/-- The clause of the status filter. -/
def statusClause (f : Filters) : Clause :=
  ⟨" AND LOWER(status) = LOWER(?)", [Arg.str f.Status]⟩

/-- The IN-list of the country clause: one `LOWER(?)` per country, joined by `, `. -/
def countryInList (n : Nat) : String :=
  stringsJoin (List.replicate n "LOWER(?)") ", "

/-- The clause of the country filter. -/
def countryClause (f : Filters) : Clause :=
  ⟨" AND LOWER(country) IN (" ++ countryInList f.Countries.length ++ ")",
    f.Countries.map Arg.str⟩

/-- The clause of the age filter. -/
def ageClause (f : Filters) : Clause :=
  ⟨" AND age = ?", [Arg.int f.Age]⟩

/-- The clause of the degree filter. -/
def degreeClause (f : Filters) : Clause :=
  ⟨" AND LOWER(degree) = LOWER(?)", [Arg.str f.Degree]⟩

/-- The clauses of the filters that are present, in the order status, countries,
age, degree, where the age filter counts as present when `agePresent` says so. -/
def clausesWhen (agePresent : Int → Bool) (f : Filters) : List Clause :=
  (if f.Status ≠ "" then [statusClause f] else []) ++
  (if f.Countries ≠ [] then [countryClause f] else []) ++
  (if agePresent f.Age then [ageClause f] else []) ++
  (if f.Degree ≠ "" then [degreeClause f] else [])

/-- The present clauses when the age filter is present for a positive age. -/
def presentClauses (f : Filters) : List Clause :=
  clausesWhen (fun age => decide (0 < age)) f

/-- The present clauses when the age filter is absent for age zero only. -/
def statedClauses (f : Filters) : List Clause :=
  clausesWhen (fun age => decide (age ≠ 0)) f

/-- The texts of a list of clauses, one after the other. -/
def clausesText : List Clause → String
  | [] => ""
  | c :: cs => c.text ++ clausesText cs

/-- The values of a list of clauses, one clause after the other. -/
def clausesValues : List Clause → List Arg
  | [] => []
  | c :: cs => c.values ++ clausesValues cs

/-! ## Lemmas on the builders -/

theorem placeholders_append (s t : String) :
    placeholders (s ++ t) = placeholders s + placeholders t := by
  simp [placeholders, List.count_append]

theorem placeholders_stringsRepeat (s : String) (n : Nat) :
    placeholders (stringsRepeat s n) = n * placeholders s := by
  induction n with
  | zero => simp [stringsRepeat, placeholders]
  | succ n ih => rw [stringsRepeat, placeholders_append, ih]; ring

theorem stringsJoin_replicate_succ (x sep : String) (n : Nat) :
    stringsJoin (List.replicate (n + 1) x) sep = x ++ stringsRepeat (sep ++ x) n := by
  induction n with
  | zero => simp [stringsJoin, stringsRepeat]
  | succ n ih =>
    rw [List.replicate_succ, List.replicate_succ, stringsJoin, ← List.replicate_succ, ih,
      stringsRepeat]
    simp [String.append_assoc]

theorem applyFilters_loop_succ (l : List String) (queryBuilder : String) (i : Nat) :
    applyFilters.loop queryBuilder (i + 1) l
      = queryBuilder ++ stringsRepeat (", " ++ "LOWER(?)") l.length := by
  induction l generalizing queryBuilder i with
  | nil => simp [applyFilters.loop, stringsRepeat]
  | cons a rest ih =>
    simp only [applyFilters.loop, Nat.succ_pos, gt_iff_lt, if_true, List.length_cons,
      stringsRepeat, ih]
    simp [String.append_assoc]

theorem applyFilters_loop_zero (a : String) (rest : List String) (queryBuilder : String) :
    applyFilters.loop queryBuilder 0 (a :: rest)
      = queryBuilder ++ countryInList (rest.length + 1) := by
  simp only [applyFilters.loop, gt_iff_lt, Nat.lt_irrefl, if_false, Nat.zero_add,
    applyFilters_loop_succ, countryInList, stringsJoin_replicate_succ]
  simp [String.append_assoc]

theorem placeholders_countryInList (n : Nat) : placeholders (countryInList n) = n := by
  cases n with
  | zero => simp [countryInList, stringsJoin, placeholders]
  | succ n =>
    rw [countryInList, stringsJoin_replicate_succ, placeholders_append,
      placeholders_stringsRepeat]
    have h1 : placeholders "LOWER(?)" = 1 := by decide
    have h2 : placeholders (", " ++ "LOWER(?)") = 1 := by decide
    rw [h1, h2]; ring

theorem foldl_append_args (l : List String) (args : List Arg) :
    l.foldl (fun args country => args ++ [Arg.str country]) args = args ++ l.map Arg.str := by
  induction l generalizing args with
  | nil => simp
  | cons a rest ih => simp [ih]

theorem applyFilters_eq (queryBuilder : String) (f : Filters) :
    applyFilters queryBuilder f = queryBuilder ++ clausesText (presentClauses f) := by
  obtain ⟨status, countries, age, degree⟩ := f
  cases countries with
  | nil =>
    simp only [applyFilters, presentClauses, clausesWhen, List.length_nil, gt_iff_lt,
      Nat.lt_irrefl, if_false, ne_eq, not_true_eq_false, decide_eq_true_eq]
    split_ifs <;>
      simp only [clausesText, statusClause, ageClause, degreeClause, String.append_assoc,
        String.append_empty, List.append_nil, List.nil_append, List.cons_append]
  | cons a rest =>
    simp only [applyFilters, presentClauses, clausesWhen, List.length_cons, gt_iff_lt,
      Nat.succ_pos, if_true, ne_eq, not_false_eq_true, decide_eq_true_eq,
      applyFilters_loop_zero, reduceCtorEq]
    split_ifs <;>
      simp only [clausesText, statusClause, countryClause, ageClause, degreeClause,
        String.append_assoc, String.append_empty, List.append_nil, List.nil_append,
        List.cons_append, List.length_cons]

theorem paginateArgs_eq (f : Filters) :
    paginateArgs f = clausesValues (presentClauses f) := by
  obtain ⟨status, countries, age, degree⟩ := f
  simp only [paginateArgs, presentClauses, clausesWhen, foldl_append_args, ne_eq,
    decide_eq_true_eq]
  cases countries <;> split_ifs <;>
    simp_all [clausesValues, statusClause, countryClause, ageClause, degreeClause]

theorem clausesText_presentClauses (f : Filters) :
    clausesText (presentClauses f)
      = (if f.Status = "" then "" else " AND LOWER(status) = LOWER(?)") ++
        ((if f.Countries.length = 0 then ""
          else " AND LOWER(country) IN (" ++ countryInList f.Countries.length ++ ")") ++
        ((if 0 < f.Age then " AND age = ?" else "") ++
          (if f.Degree = "" then "" else " AND LOWER(degree) = LOWER(?)"))) := by
  obtain ⟨status, countries, age, degree⟩ := f
  cases countries <;>
    simp only [presentClauses, clausesWhen, ne_eq, decide_eq_true_eq, not_true_eq_false,
      not_false_eq_true, if_true, if_false, List.length_nil, List.length_cons,
      Nat.succ_ne_zero, reduceCtorEq] <;>
    split_ifs <;>
    simp only [clausesText, statusClause, countryClause, ageClause, degreeClause,
      String.append_assoc, String.append_empty, String.empty_append, List.append_nil,
      List.nil_append, List.cons_append, List.length_cons]

theorem wrapInt_of_isInt (x : Int) (h : isInt x) : wrapInt x = x := by
  unfold isInt at h
  unfold wrapInt
  omega

theorem fmtD_of_nonneg (x : Int) (h : 0 ≤ x) : fmtD x = Nat.repr x.toNat := by
  cases x with
  | ofNat n => rfl
  | negSucc n => exact absurd h (by simp [Int.negSucc_lt_zero])

/-- The order entries in the specification's terms: the present entries among
id, age, name, in that order, each as `<column> <direction>`. -/
def presentOrderEntries (o : OrderBy) : List String :=
  ([("id", o.Id), ("age", o.Age), ("name", o.Name)].filter (fun e => e.2 ≠ "")).map
    (fun e => e.1 ++ " " ++ e.2)

theorem orderClauses_eq (o : OrderBy) : orderClauses o = presentOrderEntries o := by
  obtain ⟨id, age, name⟩ := o
  simp only [orderClauses, presentOrderEntries, List.filter, ne_eq, decide_not]
  by_cases h1 : id = "" <;> by_cases h2 : age = "" <;> by_cases h3 : name = "" <;>
    simp [h1, h2, h3]

theorem ite_ne_of {c : Prop} [Decidable c] (a b x : Char) (ha : a ≠ x) (hb : b ≠ x) :
    (if c then a else b) ≠ x := by
  split <;> assumption

theorem digitChar_ne_placeholder (n : Nat) : Nat.digitChar n ≠ '?' := by
  unfold Nat.digitChar
  repeat (apply ite_ne_of _ _ _ (by decide))
  decide

theorem toDigitsCore_no_placeholder (base fuel : Nat) :
    ∀ (n : Nat) (ds : List Char), (∀ c ∈ ds, c ≠ '?') →
      ∀ c ∈ Nat.toDigitsCore base fuel n ds, c ≠ '?' := by
  induction fuel with
  | zero => intro n ds h; simpa [Nat.toDigitsCore] using h
  | succ fuel ih =>
    intro n ds h
    have hcons : ∀ c ∈ Nat.digitChar (n % base) :: ds, c ≠ '?' := by
      intro c hc
      rcases List.mem_cons.mp hc with rfl | hc
      · exact digitChar_ne_placeholder _
      · exact h c hc
    simp only [Nat.toDigitsCore]
    split_ifs
    · exact hcons
    · exact ih _ _ hcons

theorem placeholders_repr (n : Nat) : placeholders (Nat.repr n) = 0 := by
  have h := toDigitsCore_no_placeholder 10 (n + 1) n [] (by simp)
  simp only [placeholders, Nat.repr, Nat.toDigits, List.asString]
  exact List.count_eq_zero.mpr (fun hmem => h _ hmem rfl)

theorem placeholders_fmtD (x : Int) : placeholders (fmtD x) = 0 := by
  cases x with
  | ofNat n => exact placeholders_repr n
  | negSucc n =>
    rw [fmtD, placeholders_append, placeholders_repr]
    decide

theorem placeholders_limitOffset (pageSize offset : Int) :
    placeholders (limitOffset pageSize offset) = 0 := by
  simp only [limitOffset, placeholders_append, placeholders_fmtD]
  decide

theorem placeholders_clause (f : Filters) :
    ∀ c ∈ presentClauses f, placeholders c.text = c.values.length := by
  intro c hc
  simp only [presentClauses, clausesWhen, List.mem_append] at hc
  rcases hc with ((hc | hc) | hc) | hc <;> split_ifs at hc <;>
    simp only [List.mem_singleton, List.not_mem_nil] at hc <;> subst hc
  · rfl
  · simp only [countryClause, placeholders_append, placeholders_countryInList,
      List.length_map]
    have h1 : placeholders " AND LOWER(country) IN (" = 0 := by decide
    have h2 : placeholders ")" = 0 := by decide
    omega
  · rfl
  · rfl

theorem placeholders_clausesText (cs : List Clause)
    (h : ∀ c ∈ cs, placeholders c.text = c.values.length) :
    placeholders (clausesText cs) = (clausesValues cs).length := by
  induction cs with
  | nil => decide
  | cons c cs ih =>
    simp only [clausesText, clausesValues, placeholders_append, List.length_append]
    rw [h c (List.mem_cons_self _ _), ih (fun d hd => h d (List.mem_cons_of_mem _ hd))]

theorem placeholders_applyOrderBy (queryBuilder : String) (o : OrderBy)
    (hid : placeholders o.Id = 0) (hage : placeholders o.Age = 0)
    (hname : placeholders o.Name = 0) :
    placeholders (applyOrderBy queryBuilder o) = placeholders queryBuilder := by
  obtain ⟨id, age, name⟩ := o
  have h0 : placeholders " ORDER BY " = 0 := by decide
  have h1 : placeholders "id " = 0 := by decide
  have h2 : placeholders "age " = 0 := by decide
  have h3 : placeholders "name " = 0 := by decide
  have h4 : placeholders ", " = 0 := by decide
  simp only at hid hage hname
  simp only [applyOrderBy, orderClauses]
  by_cases c1 : id = "" <;> by_cases c2 : age = "" <;> by_cases c3 : name = "" <;>
    simp [c1, c2, c3, stringsJoin, placeholders_append, h0, h1, h2, h3, h4, hid, hage,
      hname, -String.reduceAppend]

/-- The query `Paginate` sends binds one argument per placeholder, clause by
clause, as long as no order direction carries a `?` of its own. -/
theorem placeholders_paginateQuery (pageSize page : Int) (o : OrderBy) (f : Filters)
    (hid : placeholders o.Id = 0) (hage : placeholders o.Age = 0)
    (hname : placeholders o.Name = 0) :
    placeholders (paginateQuery pageSize page o f) = (paginateArgs f).length := by
  have hb : placeholders baseQuery = 0 := by decide
  rw [paginateQuery, placeholders_append, placeholders_limitOffset,
    placeholders_applyOrderBy _ _ hid hage hname, applyFilters_eq, placeholders_append, hb,
    placeholders_clausesText _ (placeholders_clause f), paginateArgs_eq]
  omega

theorem collectUsers_loop_ok (rows : Rows) (users : List User) (acc : List User)
    (rest : List (Except Error User)) :
    collectUsers.loop rows acc (users.map Except.ok ++ rest)
      = collectUsers.loop rows (acc ++ users) rest := by
  induction users generalizing acc with
  | nil => simp
  | cons u us ih => simp [collectUsers.loop, ih]

theorem scans_split (l : List (Except Error User)) :
    (∃ users : List User, l = users.map Except.ok)
    ∨ (∃ (users : List User) (e : Error) (rest : List (Except Error User)),
        l = users.map Except.ok ++ Except.error e :: rest) := by
  induction l with
  | nil => exact Or.inl ⟨[], rfl⟩
  | cons r rest ih =>
    cases r with
    | error e => exact Or.inr ⟨[], e, rest, rfl⟩
    | ok u =>
      rcases ih with ⟨us, h⟩ | ⟨us, e, tl, h⟩
      · exact Or.inl ⟨u :: us, by simp [h]⟩
      · exact Or.inr ⟨u :: us, e, tl, by simp [h]⟩

theorem applyOptions_panics (before after : List QOption) (opt : QOption) (v : Error)
    (hbefore : ∀ o ∈ before, ∀ q, (o q).2 = none) (hopt : ∀ q, (opt q).2 = some v) :
    ∀ q, (applyOptions (before ++ opt :: after) q).2 = some v := by
  induction before with
  | nil =>
    intro q
    have h := hopt q
    simp only [List.nil_append, applyOptions]
    split
    · next q1 v1 heq => rw [heq] at h; simpa using h
    · next q1 heq => rw [heq] at h; simp at h
  | cons o os ih =>
    intro q
    have h := hbefore o (List.mem_cons_self _ _) q
    simp only [List.cons_append, applyOptions]
    split
    · next q1 v1 heq => rw [heq] at h; simp at h
    · next q1 heq => exact ih (fun o1 h1 => hbefore o1 (List.mem_cons_of_mem _ h1)) q1

/-! ## The claims -/

/-- C1: the query text `Paginate` builds depends on the filters only through
which of them are present (status empty or not, the number of countries, age
positive or not, degree empty or not); no filter value reaches the text. -/
theorem paginateQuery_independent_of_filter_values (pageSize page : Int) (orderBy : OrderBy)
    (f g : Filters)
    (hstatus : f.Status = "" ↔ g.Status = "")
    (hcountries : f.Countries.length = g.Countries.length)
    (hage : 0 < f.Age ↔ 0 < g.Age)
    (hdegree : f.Degree = "" ↔ g.Degree = "") :
    paginateQuery pageSize page orderBy f = paginateQuery pageSize page orderBy g := by
  simp only [paginateQuery, applyFilters_eq, clausesText_presentClauses, hstatus, hcountries,
    hage, hdegree]

/-- Witness of C1: two requests with the same present filters and different
values build the same text. -/
theorem paginateQuery_independent_of_filter_values_witness :
    paginateQuery 10 2 ⟨"", "desc", ""⟩ ⟨"active", ["France", "Spain"], 30, ""⟩
      = paginateQuery 10 2 ⟨"", "desc", ""⟩ ⟨"1=1) OR (1=1", ["?", "x"], 7, ""⟩ :=
  paginateQuery_independent_of_filter_values 10 2 ⟨"", "desc", ""⟩
    ⟨"active", ["France", "Spain"], 30, ""⟩ ⟨"1=1) OR (1=1", ["?", "x"], 7, ""⟩
    (by decide) (by decide) (by decide) (by decide)

/-- C3 as stated fails: a negative age is not age zero, yet `Paginate` writes no
age clause and binds no argument for it. -/
theorem stated_clauses_counterexample :
    statedClauses ⟨"", [], -1, ""⟩ = [⟨" AND age = ?", [Arg.int (-1)]⟩]
    ∧ applyFilters baseQuery ⟨"", [], -1, ""⟩ = baseQuery
    ∧ paginateArgs ⟨"", [], -1, ""⟩ = []
    ∧ applyFilters baseQuery ⟨"", [], -1, ""⟩
        ≠ baseQuery ++ clausesText (statedClauses ⟨"", [], -1, ""⟩)
    ∧ paginateArgs ⟨"", [], -1, ""⟩ ≠ clausesValues (statedClauses ⟨"", [], -1, ""⟩) := by
  decide

/-- C3, amended: after the base select the text holds exactly one AND-clause
per present filter, in the order status, countries, age, degree, and the
arguments are the present filters' values in that order, where the age filter
is present when the age is positive; with no filter present (empty status, no
country, age zero or negative, empty degree) nothing follows the base
predicate and the argument list is empty. -/
theorem paginate_clause_per_present_filter (pageSize page : Int) (orderBy : OrderBy)
    (f : Filters) :
    paginateQuery pageSize page orderBy f
        = applyOrderBy (baseQuery ++ clausesText (presentClauses f)) orderBy
          ++ limitOffset pageSize (paginateOffset pageSize page)
    ∧ paginateArgs f = clausesValues (presentClauses f)
    ∧ (f.Status = "" → f.Countries = [] → f.Age ≤ 0 → f.Degree = "" →
        presentClauses f = [] ∧ applyFilters baseQuery f = baseQuery ∧ paginateArgs f = []) := by
  refine ⟨by simp only [paginateQuery, applyFilters_eq], paginateArgs_eq f, ?_⟩
  intro h1 h2 h3 h4
  have hp : presentClauses f = [] := by
    simp [presentClauses, clausesWhen, h1, h2, h4, not_lt.mpr h3]
  refine ⟨hp, ?_, ?_⟩
  · rw [applyFilters_eq, hp]; simp [clausesText]
  · rw [paginateArgs_eq, hp]; simp [clausesValues]

/-- Witness of C3: a request with a negative age and no other filter. -/
theorem paginate_clause_per_present_filter_witness :
    presentClauses ⟨"", [], -4, ""⟩ = []
    ∧ applyFilters baseQuery ⟨"", [], -4, ""⟩ = baseQuery
    ∧ paginateArgs ⟨"", [], -4, ""⟩ = [] :=
  (paginate_clause_per_present_filter 5 1 ⟨"", "", ""⟩ ⟨"", [], -4, ""⟩).2.2
    (by decide) (by decide) (by decide) (by decide)

/-- C4: for a country list of length n > 0 the country clause is one IN-list of
n placeholders `LOWER(?)` joined by `, `, standing between the status clause
and the age clause, and the arguments between those of status and of age are
the n countries in input order. -/
theorem paginate_country_in_list (pageSize page : Int) (orderBy : OrderBy) (f : Filters)
    (n : Nat) (hn : f.Countries.length = n) (hpos : 0 < n) :
    paginateQuery pageSize page orderBy f
        = applyOrderBy
            (baseQuery
              ++ clausesText (if f.Status ≠ "" then [statusClause f] else [])
              ++ (" AND LOWER(country) IN ("
                    ++ stringsJoin (List.replicate n "LOWER(?)") ", " ++ ")")
              ++ clausesText ((if 0 < f.Age then [ageClause f] else [])
                    ++ (if f.Degree ≠ "" then [degreeClause f] else [])))
            orderBy
          ++ limitOffset pageSize (paginateOffset pageSize page)
    ∧ (List.replicate n "LOWER(?)").length = n
    ∧ placeholders (stringsJoin (List.replicate n "LOWER(?)") ", ") = n
    ∧ paginateArgs f
        = clausesValues (if f.Status ≠ "" then [statusClause f] else [])
          ++ f.Countries.map Arg.str
          ++ clausesValues ((if 0 < f.Age then [ageClause f] else [])
                ++ (if f.Degree ≠ "" then [degreeClause f] else []))
    ∧ (f.Countries.map Arg.str).length = n := by
  have hne : f.Countries ≠ [] := by
    intro h; rw [h] at hn; simp at hn; omega
  refine ⟨?_, by simp, placeholders_countryInList n, ?_, by simp [hn]⟩
  · simp only [paginateQuery, applyFilters_eq, presentClauses, clausesWhen, hne, ne_eq,
      not_false_eq_true, if_true, decide_eq_true_eq]
    congr 2
    subst hn
    split_ifs <;>
      simp only [clausesText, countryClause, countryInList, statusClause, ageClause,
        degreeClause, String.append_assoc, String.append_empty, String.empty_append,
        List.append_nil, List.nil_append, List.cons_append]
  · rw [paginateArgs_eq]
    simp only [presentClauses, clausesWhen, hne, ne_eq, not_false_eq_true, if_true,
      decide_eq_true_eq]
    split_ifs <;>
      simp [clausesValues, countryClause, statusClause, ageClause, degreeClause]

/-- Witness of C4: three countries. -/
theorem paginate_country_in_list_witness :
    paginateQuery 10 1 ⟨"", "", ""⟩ ⟨"", ["France", "Spain", "Peru"], 0, ""⟩
        = applyOrderBy
            (baseQuery
              ++ clausesText (if ("" : String) ≠ "" then
                    [statusClause ⟨"", ["France", "Spain", "Peru"], 0, ""⟩] else [])
              ++ (" AND LOWER(country) IN ("
                    ++ stringsJoin (List.replicate 3 "LOWER(?)") ", " ++ ")")
              ++ clausesText ((if (0 : Int) < 0 then
                      [ageClause ⟨"", ["France", "Spain", "Peru"], 0, ""⟩] else [])
                    ++ (if ("" : String) ≠ "" then
                      [degreeClause ⟨"", ["France", "Spain", "Peru"], 0, ""⟩] else [])))
            ⟨"", "", ""⟩
          ++ limitOffset 10 (paginateOffset 10 1)
    ∧ paginateArgs ⟨"", ["France", "Spain", "Peru"], 0, ""⟩
        = [Arg.str "France", Arg.str "Spain", Arg.str "Peru"] := by
  have h := paginate_country_in_list 10 1 ⟨"", "", ""⟩
    ⟨"", ["France", "Spain", "Peru"], 0, ""⟩ 3 (by decide) (by decide)
  exact ⟨h.1, by decide⟩

/-- C2 fails on the code: an order direction is written into the text as it
comes, so a `?` in it is a placeholder with no argument; here the text has two
placeholders and the argument list one entry. -/
theorem paginate_placeholder_without_argument :
    paginateQuery 10 1 ⟨"asc, ?", "", ""⟩ ⟨"active", [], 0, ""⟩
        = baseQuery ++ " AND LOWER(status) = LOWER(?) ORDER BY id asc, ? LIMIT 10 OFFSET 0"
    ∧ placeholders (paginateQuery 10 1 ⟨"asc, ?", "", ""⟩ ⟨"active", [], 0, ""⟩) = 2
    ∧ paginateArgs ⟨"active", [], 0, ""⟩ = [Arg.str "active"] := by
  decide

/-- C5 as stated fails: page 3 of size 2^62 is a page window, yet the product
2 * 2^62 overflows the 64-bit `int` and the text ends with a negative offset,
not with the decimal of (page-1) * pageSize. -/
theorem paginate_offset_counterexample :
    (1 : Int) ≤ 3 ∧ (1 : Int) ≤ 4611686018427387904
    ∧ isInt 3 ∧ isInt 4611686018427387904
    ∧ paginateQuery 4611686018427387904 3 ⟨"", "", ""⟩ ⟨"", [], 0, ""⟩
        = baseQuery ++ " LIMIT 4611686018427387904 OFFSET -9223372036854775808"
    ∧ ¬ ∃ before : String,
        paginateQuery 4611686018427387904 3 ⟨"", "", ""⟩ ⟨"", [], 0, ""⟩
          = before ++ (" LIMIT " ++ fmtD 4611686018427387904 ++ " OFFSET "
              ++ fmtD ((3 - 1) * 4611686018427387904)) := by
  refine ⟨by decide, by decide, by decide, by decide, by decide, ?_⟩
  rintro ⟨before, h⟩
  have hd := congrArg String.data h
  rw [String.data_append] at hd
  have hs : (" LIMIT " ++ fmtD 4611686018427387904 ++ " OFFSET "
      ++ fmtD ((3 - 1) * 4611686018427387904)).data
      <:+ (paginateQuery 4611686018427387904 3 ⟨"", "", ""⟩ ⟨"", [], 0, ""⟩).data :=
    ⟨before.data, hd.symm⟩
  revert hs
  decide

/-- C5, amended: for a page window (page >= 1, pageSize >= 1, both Go ints)
whose product (page-1) * pageSize fits the 64-bit int, the text ends with
` LIMIT <pageSize> OFFSET <(page-1) * pageSize>`, both numbers in decimal, and
nothing follows. -/
theorem paginate_limit_offset (pageSize page : Int) (orderBy : OrderBy) (f : Filters)
    (hpage : 1 ≤ page) (hsize : 1 ≤ pageSize) (hp : isInt page) (_hs : isInt pageSize)
    (hfit : (page - 1) * pageSize < 2 ^ 63) :
    paginateQuery pageSize page orderBy f
        = applyOrderBy (applyFilters baseQuery f) orderBy
          ++ (" LIMIT " ++ fmtD pageSize ++ " OFFSET " ++ fmtD ((page - 1) * pageSize))
    ∧ fmtD pageSize = Nat.repr pageSize.toNat
    ∧ fmtD ((page - 1) * pageSize) = Nat.repr ((page - 1) * pageSize).toNat := by
  have h0 : 0 ≤ (page - 1) * pageSize := Int.mul_nonneg (by omega) (by omega)
  have h1 : wrapInt (page - 1) = page - 1 := by
    apply wrapInt_of_isInt
    unfold isInt at *
    omega
  have h2 : wrapInt ((page - 1) * pageSize) = (page - 1) * pageSize := by
    apply wrapInt_of_isInt
    unfold isInt
    constructor
    · linarith
    · exact hfit
  refine ⟨?_, fmtD_of_nonneg _ (by omega), fmtD_of_nonneg _ h0⟩
  simp only [paginateQuery, paginateOffset, limitOffset, h1, h2]

/-- Witness of C5: page 3 of size 10 gives `LIMIT 10 OFFSET 20`. -/
theorem paginate_limit_offset_witness :
    paginateQuery 10 3 ⟨"", "asc", ""⟩ ⟨"", [], 0, ""⟩
        = applyOrderBy (applyFilters baseQuery ⟨"", [], 0, ""⟩) ⟨"", "asc", ""⟩
          ++ (" LIMIT " ++ fmtD 10 ++ " OFFSET " ++ fmtD ((3 - 1) * 10)) :=
  (paginate_limit_offset 10 3 ⟨"", "asc", ""⟩ ⟨"", [], 0, ""⟩ (by decide) (by decide)
    (by decide) (by decide) (by decide)).1

/-- C6: `Paginate` writes an ORDER BY clause exactly when one of the id, age,
name entries is non-empty, and the clause is the present entries, each as
`<column> <direction>`, joined by `, `, in the order id, age, name. -/
theorem paginate_order_by_clause (pageSize page : Int) (o : OrderBy) (f : Filters) :
    paginateQuery pageSize page o f
        = applyFilters baseQuery f
          ++ (if o.Id = "" ∧ o.Age = "" ∧ o.Name = "" then ""
              else " ORDER BY " ++ stringsJoin (presentOrderEntries o) ", ")
          ++ limitOffset pageSize (paginateOffset pageSize page)
    ∧ (applyOrderBy (applyFilters baseQuery f) o = applyFilters baseQuery f
        ↔ o.Id = "" ∧ o.Age = "" ∧ o.Name = "") := by
  have hnil : presentOrderEntries o = [] ↔ o.Id = "" ∧ o.Age = "" ∧ o.Name = "" := by
    obtain ⟨id, age, name⟩ := o
    simp only [presentOrderEntries, List.filter, ne_eq, decide_not]
    by_cases h1 : id = "" <;> by_cases h2 : age = "" <;> by_cases h3 : name = "" <;>
      simp [h1, h2, h3]
  have hlen : (orderClauses o).length > 0 ↔ ¬ (o.Id = "" ∧ o.Age = "" ∧ o.Name = "") := by
    rw [orderClauses_eq, ← hnil, gt_iff_lt, List.length_pos]
  constructor
  · simp only [paginateQuery, applyOrderBy, orderClauses_eq]
    by_cases h : o.Id = "" ∧ o.Age = "" ∧ o.Name = ""
    · have hn := hnil.mpr h
      simp [h, hn]
    · have hn : presentOrderEntries o ≠ [] := fun hn => h (hnil.mp hn)
      simp [h, List.length_pos.mpr hn]
  · simp only [applyOrderBy]
    by_cases h : o.Id = "" ∧ o.Age = "" ∧ o.Name = ""
    · simp [h, (not_iff_not.mpr hlen).mpr (not_not.mpr h)]
    · simp only [hlen.mpr h, if_true, h, iff_false]
      intro heq
      have hl := congrArg String.length heq
      simp only [String.length_append] at hl
      have h9 : (" ORDER BY " : String).length = 10 := by decide
      omega

/-- C7 fails on the code: `applyOrderBy` writes a direction outside asc and
desc into the text unchecked, where `WithOrderBy` rejects the same direction. -/
theorem paginate_order_direction_unvalidated :
    orderClauses ⟨"sideways", "", ""⟩ = ["id sideways"]
    ∧ paginateQuery 10 1 ⟨"sideways", "", ""⟩ ⟨"", [], 0, ""⟩
        = baseQuery ++ " ORDER BY id sideways LIMIT 10 OFFSET 0"
    ∧ WithOrderBy "id" "sideways" queryOptions.zero
        = (queryOptions.zero, some Error.ErrInvalidOrder) := by
  decide

/-- C8: `WithOrderBy(column, direction)` panics with `ErrInvalidOrder` exactly
when the direction is neither asc nor desc; the panic leaves the options as
they were and ends `Retrieve` before any query is built or sent; a valid
direction sets the order column and direction and nothing else. -/
theorem WithOrderBy_invalid_direction (column order : String) (q : queryOptions)
    (ut : UserTable) (before after : List QOption) :
    ((WithOrderBy column order q).2 = some Error.ErrInvalidOrder
        ↔ (order ≠ "asc" ∧ order ≠ "desc"))
    ∧ ((WithOrderBy column order q).2 = none ↔ (order = "asc" ∨ order = "desc"))
    ∧ ((order ≠ "asc" ∧ order ≠ "desc") → (WithOrderBy column order q).1 = q)
    ∧ ((order ≠ "asc" ∧ order ≠ "desc") → (∀ o ∈ before, ∀ q0, (o q0).2 = none) →
        ut.Retrieve (before ++ WithOrderBy column order :: after)
            = (ut, Outcome.panicked Error.ErrInvalidOrder)
        ∧ (ut.Retrieve (before ++ WithOrderBy column order :: after)).1.db.log = ut.db.log)
    ∧ ((order = "asc" ∨ order = "desc") →
        WithOrderBy column order q = (⟨q.Limit, q.Status, q.Country, column, order⟩, none)) := by
  by_cases h : order ≠ "asc" ∧ order ≠ "desc"
  · have hno : ¬ (order = "asc" ∨ order = "desc") := by tauto
    refine ⟨by simp [WithOrderBy, h], by simp [WithOrderBy, h, hno], by simp [WithOrderBy, h],
      ?_, fun h1 => absurd h1 hno⟩
    intro _ hbefore
    have hp := applyOptions_panics before after (WithOrderBy column order)
      Error.ErrInvalidOrder hbefore (fun q0 => by simp [WithOrderBy, h]) queryOptions.zero
    have hr : ut.Retrieve (before ++ WithOrderBy column order :: after)
        = (ut, Outcome.panicked Error.ErrInvalidOrder) := by
      unfold UserTable.Retrieve
      split
      · next q1 v1 heq => rw [heq] at hp; simp only [Option.some.injEq] at hp; rw [hp]
      · next q1 heq => rw [heq] at hp; simp at hp
    exact ⟨hr, by rw [hr]⟩
  · have hyes : order = "asc" ∨ order = "desc" := by tauto
    refine ⟨by simp [WithOrderBy, h], by simp [WithOrderBy, h, hyes], fun h1 => absurd h1 h,
      fun h1 => absurd h1 h, fun _ => by simp [WithOrderBy, h]⟩

/-- Witness of C8: `Retrieve(WithLimit(5), WithOrderBy("id", "up"))` panics and
sends nothing. -/
theorem WithOrderBy_invalid_direction_witness :
    UserTable.Retrieve ⟨⟨fun _ _ => Except.ok ⟨[], none⟩, []⟩⟩
        ([WithLimit 5] ++ WithOrderBy "id" "up" :: [WithStatus ["active"]])
      = (⟨⟨fun _ _ => Except.ok ⟨[], none⟩, []⟩⟩, Outcome.panicked Error.ErrInvalidOrder) :=
  ((WithOrderBy_invalid_direction "id" "up" queryOptions.zero
      ⟨⟨fun _ _ => Except.ok ⟨[], none⟩, []⟩⟩ [WithLimit 5] [WithStatus ["active"]]).2.2.2.1
    (by decide) (by intro o ho q0; simp at ho; subst ho; rfl)).1

/-- C9 fails on the code: when the store rejects the query, `Paginate` hands
back the driver's own error, where `Retrieve` and `RetrieveAll` answer
`ErrRetrieveFailed`. -/
theorem paginate_returns_engine_error :
    (UserTable.Paginate ⟨⟨fun _ _ => Except.error (Error.engine "database is locked"), []⟩⟩
        10 1 ⟨"", "", ""⟩ ⟨"", [], 0, ""⟩).2
      = ([], some (Error.engine "database is locked"))
    ∧ Error.engine "database is locked" ≠ Error.ErrRetrieveFailed
    ∧ (UserTable.RetrieveAll
        ⟨⟨fun _ _ => Except.error (Error.engine "database is locked"), []⟩⟩).2
      = ([], some Error.ErrRetrieveFailed)
    ∧ (∃ ut, UserTable.Retrieve
        ⟨⟨fun _ _ => Except.error (Error.engine "database is locked"), []⟩⟩ []
      = (ut, Outcome.returned ([], some Error.ErrRetrieveFailed))) := by
  refine ⟨rfl, by decide, rfl, ⟨_, rfl⟩⟩

/-- C10: `collectUsers` is all-or-nothing. When every row decodes and the
cursor reports no error it returns all the users in cursor order; when a row
fails to decode, or the cursor reports an error after the last row, it returns
that error and no records; an empty cursor gives no records and no error; and
every cursor is one of these. -/
theorem collectUsers_all_or_nothing :
    (∀ users : List User, collectUsers ⟨users.map Except.ok, none⟩ = (users, none))
    ∧ (∀ (users : List User) (e : Error) (rest : List (Except Error User))
        (err : Option Error),
        collectUsers ⟨users.map Except.ok ++ Except.error e :: rest, err⟩ = ([], some e))
    ∧ (∀ (users : List User) (e : Error),
        collectUsers ⟨users.map Except.ok, some e⟩ = ([], some e))
    ∧ collectUsers ⟨[], none⟩ = ([], none)
    ∧ (∀ rows : Rows,
        (∃ users : List User, rows.scans = users.map Except.ok ∧ rows.err = none
          ∧ collectUsers rows = (users, none))
        ∨ (∃ e : Error, collectUsers rows = ([], some e))) := by
  have hok : ∀ (users : List User) (err : Option Error),
      collectUsers ⟨users.map Except.ok, err⟩
        = match err with
          | some e => ([], some e)
          | none => (users, none) := by
    intro users err
    have h := collectUsers_loop_ok ⟨users.map Except.ok, err⟩ users [] []
    simp only [List.append_nil, List.nil_append] at h
    simp only [collectUsers, h, collectUsers.loop]
  have hfail : ∀ (users : List User) (e : Error) (rest : List (Except Error User))
      (err : Option Error),
      collectUsers ⟨users.map Except.ok ++ Except.error e :: rest, err⟩ = ([], some e) := by
    intro users e rest err
    simp only [collectUsers, collectUsers_loop_ok, collectUsers.loop]
  refine ⟨fun users => hok users none, hfail, fun users e => hok users (some e), rfl, ?_⟩
  rintro ⟨scans, err⟩
  rcases scans_split scans with ⟨us, h⟩ | ⟨us, e, tl, h⟩
  · subst h
    cases err with
    | none => exact Or.inl ⟨us, rfl, rfl, hok us none⟩
    | some e => exact Or.inr ⟨e, hok us (some e)⟩
  · subst h
    exact Or.inr ⟨e, hfail us e tl err⟩

end db
